import Mathlib

/-!
Verification development for the ReactiveAvoidanceRL configuration validator.

The Python sources embedded here are:
  - `src/utils/environment/coordinates.py` (class `Coordinates`),
  - `src/utils/environment/grid_dimensions.py` (class `GridDimensions`),
  - `src/utils/yaml_parser/helpers.py` (structural predicates, the BFS
    reachability engine `minimum_moves_to_reach_goal`, the time-step
    conversion, and the semantic validator `validate_system_configuration`),
  - `src/utils/yaml_parser/configuration.py` (the typed configuration
    dataclasses and their `from_dict` builders).

Python `int` is modelled by `Int`.  Python functions that raise are modelled
with `Except String`.  The BFS loop is modelled with an explicit fuel
parameter (`bfsAux`); a fuel-sufficiency theorem shows the chosen fuel bound
is never exhausted, so the fuel is an artifact of totality, not a change of
behaviour.
-/

/-- `Coordinates` from `coordinates.py`: an immutable pair of integers. -/
@[ext] structure Coordinates where
  x : Int
  y : Int
deriving DecidableEq, Repr

/-- `GridDimensions` from `grid_dimensions.py`. -/
structure GridDimensions where
  width : Int
  height : Int
deriving DecidableEq, Repr

/-- `GridDimensions.contains_coordinates`:
`0 <= coordinates.x < self.width and 0 <= coordinates.y < self.height`. -/
def GridDimensions.contains_coordinates (gd : GridDimensions) (c : Coordinates) : Prop :=
  0 ≤ c.x ∧ c.x < gd.width ∧ 0 ≤ c.y ∧ c.y < gd.height

instance (gd : GridDimensions) (c : Coordinates) :
    Decidable (gd.contains_coordinates c) :=
  decidable_of_iff (0 ≤ c.x ∧ c.x < gd.width ∧ 0 ≤ c.y ∧ c.y < gd.height) Iff.rfl

/-- `DIRECTIONS` from `helpers.py`, in source order. -/
def DIRECTIONS : List (Int × Int) :=
  [(0, 1), (1, 0), (0, -1), (-1, 0), (1, 1), (1, -1), (-1, -1), (-1, 1)]

/-- The cell reached from `c` by the direction offset `d`
(`Coordinates(current.x + direction[0], current.y + direction[1])`). -/
def off (c : Coordinates) (d : Int × Int) : Coordinates :=
  ⟨c.x + d.1, c.y + d.2⟩

/-- Result of expanding one dequeued node over the remaining directions:
either the goal was seen (returning the final move count) or the loop
continues with the updated visited set and the newly enqueued nodes. -/
inductive ExpandOut where
  | found : Nat → ExpandOut
  | cont : List Coordinates → List (Coordinates × Nat) → ExpandOut
deriving DecidableEq

/-- The inner `for direction in DIRECTIONS` loop of
`minimum_moves_to_reach_goal`, processing the remaining direction list `ds`
in order.  `acc` accumulates the nodes appended to the queue, in order. -/
def expand (gd : GridDimensions) (goal : Coordinates) (obs : List Coordinates)
    (cur : Coordinates) (moves : Nat) :
    List (Int × Int) → List Coordinates → List (Coordinates × Nat) → ExpandOut
  | [], visited, acc => .cont visited acc
  | d :: ds, visited, acc =>
    let nxt := off cur d
    if ¬ gd.contains_coordinates nxt ∨ nxt ∈ obs then
      expand gd goal obs cur moves ds visited acc
    else if nxt ∈ visited then
      expand gd goal obs cur moves ds visited acc
    else if nxt = goal then
      .found (moves + 1)
    else
      expand gd goal obs cur moves ds (nxt :: visited) (acc ++ [(nxt, moves + 1)])

/-- The `while queue` loop of `minimum_moves_to_reach_goal`, with explicit
fuel.  `none` means the fuel ran out (shown impossible for the fuel chosen in
`minimum_moves_to_reach_goal`); `some none` means the queue emptied with the
goal unreached; `some (some n)` means the goal was reached after `n` moves. -/
def bfsAux (gd : GridDimensions) (goal : Coordinates) (obs : List Coordinates) :
    Nat → List (Coordinates × Nat) → List Coordinates → Option (Option Nat)
  | 0, _, _ => none
  | _ + 1, [], _ => some none
  | fuel + 1, (cur, moves) :: rest, visited =>
    match expand gd goal obs cur moves DIRECTIONS visited [] with
    | .found n => some (some n)
    | .cont visited' adds => bfsAux gd goal obs fuel (rest ++ adds) visited'

/-- Fuel bound for the BFS loop: at most one dequeue per cell ever enqueued
(the start plus at most every in-bounds cell) plus the final empty-queue
check. -/
def bfsFuel (gd : GridDimensions) : Nat :=
  gd.width.toNat * gd.height.toNat + 2

/-- `minimum_moves_to_reach_goal` from `helpers.py`. -/
def minimum_moves_to_reach_goal (gd : GridDimensions)
    (start_coordinates goal_coordinates : Coordinates)
    (obstacles_coordinates : List Coordinates) : Option Nat :=
  if goal_coordinates ∈ obstacles_coordinates then
    none
  else if start_coordinates = goal_coordinates then
    some 0
  else
    (bfsAux gd goal_coordinates obstacles_coordinates (bfsFuel gd)
      [(start_coordinates, 0)] [start_coordinates]).getD none

/-- `calculate_minimum_time_steps_to_reach_goal` from `helpers.py`:
raises when the velocity is not positive, otherwise returns
`ceil(minimum_moves / velocity)` (Python true division, modelled exactly
over the rationals). -/
def calculate_minimum_time_steps_to_reach_goal (minimum_moves velocity : Int) :
    Except String Int :=
  if velocity ≤ 0 then
    .error "The agents velocity must be positive."
  else
    .ok ⌈(minimum_moves : ℚ) / (velocity : ℚ)⌉

/-- `is_episode_time_limit_sufficient` from `helpers.py`. -/
def is_episode_time_limit_sufficient (episode_time_limit minimum_time_steps : Int) : Prop :=
  episode_time_limit ≥ minimum_time_steps

instance (l s : Int) : Decidable (is_episode_time_limit_sufficient l s) :=
  decidable_of_iff (l ≥ s) Iff.rfl

/-! ### Fuel sufficiency for the BFS loop -/

/-- The finite set of in-bounds cells of a grid. -/
def inBFinset (gd : GridDimensions) : Finset Coordinates :=
  ((Finset.range gd.width.toNat) ×ˢ (Finset.range gd.height.toNat)).image
    (fun p => ⟨(p.1 : Int), (p.2 : Int)⟩)

lemma mem_inBFinset {gd : GridDimensions} {c : Coordinates} :
    c ∈ inBFinset gd ↔ gd.contains_coordinates c := by
  simp only [inBFinset, Finset.mem_image, Finset.mem_product, Finset.mem_range,
    GridDimensions.contains_coordinates]
  constructor
  · rintro ⟨⟨a, b⟩, ⟨ha, hb⟩, rfl⟩
    dsimp only
    omega
  · rintro ⟨h1, h2, h3, h4⟩
    exact ⟨⟨c.x.toNat, c.y.toNat⟩, ⟨by omega, by omega⟩, by ext <;> simp <;> omega⟩

lemma inBFinset_card_le (gd : GridDimensions) :
    (inBFinset gd).card ≤ gd.width.toNat * gd.height.toNat := by
  calc (inBFinset gd).card
      ≤ ((Finset.range gd.width.toNat) ×ˢ (Finset.range gd.height.toNat)).card :=
        Finset.card_image_le
    _ = gd.width.toNat * gd.height.toNat := by
        rw [Finset.card_product, Finset.card_range, Finset.card_range]

lemma expand_cont_measure (gd : GridDimensions) (goal : Coordinates)
    (obs : List Coordinates) (cur : Coordinates) (moves : Nat) :
    ∀ (ds : List (Int × Int)) (V : List Coordinates) (acc : List (Coordinates × Nat))
      (V' : List Coordinates) (acc' : List (Coordinates × Nat)),
      expand gd goal obs cur moves ds V acc = .cont V' acc' →
      acc'.length + ((inBFinset gd) \ V'.toFinset).card ≤
        acc.length + ((inBFinset gd) \ V.toFinset).card := by
  intro ds
  induction ds with
  | nil =>
    intro V acc V' acc' h
    simp only [expand] at h
    cases h
    exact le_rfl
  | cons d ds ih =>
    intro V acc V' acc' h
    simp only [expand] at h
    split at h
    · exact ih V acc V' acc' h
    · split at h
      · exact ih V acc V' acc' h
      · split at h
        · cases h
        · rename_i hskip hvis hgoal
          have hin : off cur d ∈ inBFinset gd := by
            rw [mem_inBFinset]
            push_neg at hskip
            exact hskip.1
          have hnv : off cur d ∉ V.toFinset := by
            simpa using hvis
          have hmem : off cur d ∈ (inBFinset gd) \ V.toFinset :=
            Finset.mem_sdiff.mpr ⟨hin, hnv⟩
          have hcard : ((inBFinset gd) \ (off cur d :: V).toFinset).card =
              ((inBFinset gd) \ V.toFinset).card - 1 := by
            have : (off cur d :: V).toFinset = insert (off cur d) V.toFinset := by
              simp
            rw [this, Finset.sdiff_insert, Finset.card_erase_of_mem hmem]
          have hpos : 0 < ((inBFinset gd) \ V.toFinset).card :=
            Finset.card_pos.mpr ⟨_, hmem⟩
          have := ih _ _ V' acc' h
          simp only [List.length_append, List.length_cons, List.length_nil] at this
          omega

lemma bfsAux_isSome (gd : GridDimensions) (goal : Coordinates) (obs : List Coordinates) :
    ∀ (fuel : Nat) (Q : List (Coordinates × Nat)) (V : List Coordinates),
      Q.length + ((inBFinset gd) \ V.toFinset).card + 1 ≤ fuel →
      (bfsAux gd goal obs fuel Q V).isSome := by
  intro fuel
  induction fuel with
  | zero => intro Q V h; omega
  | succ n ih =>
    intro Q V h
    match Q with
    | [] => simp [bfsAux]
    | (cur, moves) :: rest =>
      rw [bfsAux]
      cases hE : expand gd goal obs cur moves DIRECTIONS V [] with
      | found k => simp
      | cont V' adds =>
        simp only []
        apply ih
        have hm := expand_cont_measure gd goal obs cur moves DIRECTIONS V [] V' adds hE
        simp only [List.length_nil, List.length_cons, List.length_append] at hm h ⊢
        omega

/-! ### Exact evaluation of the rational ceiling -/

lemma ceil_div_eq_ediv (m v : Int) (hv : 0 < v) :
    (⌈(m : ℚ) / (v : ℚ)⌉ : Int) = (m + v - 1) / v := by
  have hv0 : (0 : ℚ) < (v : ℚ) := by exact_mod_cast hv
  have h1 := Int.ediv_add_emod (m + v - 1) v
  have h2 := Int.emod_nonneg (m + v - 1) (ne_of_gt hv)
  have h3 := Int.emod_lt_of_pos (m + v - 1) hv
  rw [Int.ceil_eq_iff]
  constructor
  · rw [lt_div_iff₀ hv0]
    have : ((m + v - 1) / v - 1) * v < m := by nlinarith
    calc ((((m + v - 1) / v : Int) : ℚ) - 1) * (v : ℚ)
        = ((((m + v - 1) / v - 1) * v : Int) : ℚ) := by push_cast; ring
      _ < (m : ℚ) := by exact_mod_cast this
  · rw [div_le_iff₀ hv0]
    have : m ≤ ((m + v - 1) / v) * v := by nlinarith
    calc (m : ℚ) ≤ ((((m + v - 1) / v) * v : Int) : ℚ) := by exact_mod_cast this
      _ = (((m + v - 1) / v : Int) : ℚ) * (v : ℚ) := by push_cast; ring

/-- Evaluation form of the time-step conversion on the non-error branch. -/
lemma calc_time_steps_ok (m v : Int) (hv : 0 < v) :
    calculate_minimum_time_steps_to_reach_goal m v = .ok ((m + v - 1) / v) := by
  rw [calculate_minimum_time_steps_to_reach_goal, if_neg (by omega), ceil_div_eq_ediv m v hv]

/-! ### Claims C4, C5, C6, C9, C10 -/

/-! ### The Chebyshev metric and greedy geodesics (for claim C2) -/

/-- 8-directional (Chebyshev) distance between two cells. -/
def cheb (a b : Coordinates) : Nat :=
  max (b.x - a.x).natAbs (b.y - a.y).natAbs

lemma cheb_self (a : Coordinates) : cheb a a = 0 := by simp [cheb]

lemma cheb_eq_zero {a b : Coordinates} (h : cheb a b = 0) : a = b := by
  simp only [cheb] at h
  ext <;> omega

lemma cheb_triangle (a b c : Coordinates) : cheb a c ≤ cheb a b + cheb b c := by
  simp only [cheb]
  omega

/-- Integer sign, used to take one greedy Chebyshev step toward a target. -/
def sgn (z : Int) : Int := if z < 0 then -1 else if z = 0 then 0 else 1

lemma sgn_neg {z : Int} (h : z < 0) : sgn z = -1 := if_pos h

lemma sgn_zero : sgn 0 = 0 := rfl

lemma sgn_pos {z : Int} (h : 0 < z) : sgn z = 1 := by
  rw [sgn, if_neg (by omega), if_neg (by omega)]

lemma sgn_bound (z : Int) : -1 ≤ sgn z ∧ sgn z ≤ 1 := by
  rw [sgn]; split_ifs <;> omega

/-- One greedy unit move from `c` toward `u`. -/
def step (c u : Coordinates) : Coordinates :=
  ⟨c.x + sgn (u.x - c.x), c.y + sgn (u.y - c.y)⟩

/-- The direction offset of the greedy move from `c` toward `u`. -/
def stepDir (c u : Coordinates) : Int × Int :=
  (sgn (u.x - c.x), sgn (u.y - c.y))

lemma off_stepDir (c u : Coordinates) : off c (stepDir c u) = step c u := rfl

lemma stepDir_mem {c u : Coordinates} (h : c ≠ u) : stepDir c u ∈ DIRECTIONS := by
  have hne : ¬ (u.x - c.x = 0 ∧ u.y - c.y = 0) := by
    rintro ⟨h1, h2⟩
    exact h (by ext <;> omega)
  unfold stepDir sgn
  split_ifs <;> first
    | (exfalso; omega)
    | decide

lemma natAbs_sub_sgn (a b : Int) :
    (b - (a + sgn (b - a))).natAbs = (b - a).natAbs - 1 := by
  rw [sgn]; split_ifs <;> omega

lemma cheb_step_eq (c u : Coordinates) : cheb (step c u) u = cheb c u - 1 := by
  simp only [cheb, step]
  rw [natAbs_sub_sgn, natAbs_sub_sgn]
  omega

lemma cheb_step_le_one (c u : Coordinates) : cheb c (step c u) ≤ 1 := by
  simp only [cheb, step]
  have h1 := sgn_bound (u.x - c.x)
  have h2 := sgn_bound (u.y - c.y)
  omega

lemma step_between (p u : Coordinates) :
    min p.x u.x ≤ (step p u).x ∧ (step p u).x ≤ max p.x u.x ∧
      min p.y u.y ≤ (step p u).y ∧ (step p u).y ≤ max p.y u.y := by
  simp only [step, sgn]
  split_ifs <;> omega

/-- The canonical greedy geodesic from `c` toward `u`: `j` greedy steps. -/
def greedyIter (c u : Coordinates) : Nat → Coordinates
  | 0 => c
  | j + 1 => step (greedyIter c u j) u

lemma cheb_greedyIter (c u : Coordinates) (j : Nat) :
    cheb (greedyIter c u j) u = cheb c u - j := by
  induction j with
  | zero => simp [greedyIter]
  | succ n ih =>
    simp only [greedyIter, cheb_step_eq, ih]
    omega

lemma greedyIter_add (c u : Coordinates) (j k : Nat) :
    greedyIter c u (j + k) = greedyIter (greedyIter c u j) u k := by
  induction k with
  | zero => rfl
  | succ n ih => rw [Nat.add_succ, greedyIter, greedyIter, ih]

lemma cheb_greedyIter_left_le (c u : Coordinates) (j : Nat) :
    cheb c (greedyIter c u j) ≤ j := by
  induction j with
  | zero => simp [greedyIter, cheb_self]
  | succ n ih =>
    have h1 := cheb_triangle c (greedyIter c u n) (step (greedyIter c u n) u)
    have h2 := cheb_step_le_one (greedyIter c u n) u
    simp only [greedyIter]
    omega

lemma cheb_greedyIter_left_ge (c u : Coordinates) {j : Nat} (hj : j ≤ cheb c u) :
    j ≤ cheb c (greedyIter c u j) := by
  have h1 := cheb_triangle c (greedyIter c u j) u
  have h2 := cheb_greedyIter c u j
  omega

lemma greedyIter_cheb (c u : Coordinates) : greedyIter c u (cheb c u) = u :=
  cheb_eq_zero (by rw [cheb_greedyIter]; omega)

lemma greedyIter_between (c u : Coordinates) (j : Nat) :
    min c.x u.x ≤ (greedyIter c u j).x ∧ (greedyIter c u j).x ≤ max c.x u.x ∧
      min c.y u.y ≤ (greedyIter c u j).y ∧ (greedyIter c u j).y ≤ max c.y u.y := by
  induction j with
  | zero => simp only [greedyIter]; omega
  | succ n ih =>
    have hs := step_between (greedyIter c u n) u
    simp only [greedyIter]
    omega

lemma greedyIter_contains {gd : GridDimensions} {c u : Coordinates}
    (hc : gd.contains_coordinates c) (hu : gd.contains_coordinates u) (j : Nat) :
    gd.contains_coordinates (greedyIter c u j) := by
  have hb := greedyIter_between c u j
  simp only [GridDimensions.contains_coordinates] at hc hu ⊢
  omega

lemma dir_cheb_le_one {d : Int × Int} (hd : d ∈ DIRECTIONS) (c : Coordinates) :
    cheb c (off c d) ≤ 1 := by
  fin_cases hd <;> simp [cheb, off]

/-! ### Declarative characterisation of one expansion round -/

/-- Whether direction `d` from `cur` leads to a cell the expansion loop
enqueues: in bounds, not an obstacle, not yet visited, and not the goal. -/
def okDir (gd : GridDimensions) (goal : Coordinates) (obs V : List Coordinates)
    (cur : Coordinates) (d : Int × Int) : Bool :=
  decide (gd.contains_coordinates (off cur d) ∧ off cur d ∉ obs ∧
    off cur d ∉ V ∧ off cur d ≠ goal)

/-- The cells enqueued by one expansion round, in direction order. -/
def okCells (gd : GridDimensions) (goal : Coordinates) (obs V : List Coordinates)
    (cur : Coordinates) (ds : List (Int × Int)) : List Coordinates :=
  (ds.filter (okDir gd goal obs V cur)).map (fun d => off cur d)

lemma mem_okCells {gd : GridDimensions} {goal : Coordinates} {obs V : List Coordinates}
    {cur : Coordinates} {ds : List (Int × Int)} {x : Coordinates} :
    x ∈ okCells gd goal obs V cur ds ↔
      (∃ d ∈ ds, x = off cur d) ∧ gd.contains_coordinates x ∧ x ∉ obs ∧
        x ∉ V ∧ x ≠ goal := by
  simp only [okCells, List.mem_map, List.mem_filter, okDir, decide_eq_true_eq]
  constructor
  · rintro ⟨d, ⟨hd, h1, h2, h3, h4⟩, rfl⟩
    exact ⟨⟨d, hd, rfl⟩, h1, h2, h3, h4⟩
  · rintro ⟨⟨d, hd, rfl⟩, h1, h2, h3, h4⟩
    exact ⟨d, ⟨hd, h1, h2, h3, h4⟩, rfl⟩

lemma okCells_congr {gd : GridDimensions} {goal : Coordinates} {obs : List Coordinates}
    {cur : Coordinates} {V V' : List Coordinates} (ds : List (Int × Int))
    (h : ∀ d ∈ ds, (off cur d ∈ V ↔ off cur d ∈ V')) :
    okCells gd goal obs V cur ds = okCells gd goal obs V' cur ds := by
  unfold okCells
  congr 1
  apply List.filter_congr
  intro d hd
  unfold okDir
  refine decide_eq_decide.mpr ⟨?_, ?_⟩ <;> rintro ⟨a, b, c2, e⟩
  · exact ⟨a, b, fun hx => c2 ((h d hd).mpr hx), e⟩
  · exact ⟨a, b, fun hx => c2 ((h d hd).mp hx), e⟩

/-- One expansion round either sees the goal through some direction whose
target is in bounds, unobstructed and unvisited — and then returns
`moves + 1` — or it sees the goal through no direction and appends exactly
the admissible cells, in direction order, to the visited set and queue. -/
lemma expand_spec (gd : GridDimensions) (goal : Coordinates) (obs : List Coordinates)
    (cur : Coordinates) (moves : Nat) :
    ∀ (ds : List (Int × Int)) (V : List Coordinates) (acc : List (Coordinates × Nat)),
      (ds.map (fun d => off cur d)).Nodup →
      ((∃ d ∈ ds, gd.contains_coordinates (off cur d) ∧ off cur d ∉ obs ∧
          off cur d ∉ V ∧ off cur d = goal) ∧
        expand gd goal obs cur moves ds V acc = .found (moves + 1)) ∨
      ((∀ d ∈ ds, ¬ (gd.contains_coordinates (off cur d) ∧ off cur d ∉ obs ∧
          off cur d ∉ V ∧ off cur d = goal)) ∧
        expand gd goal obs cur moves ds V acc =
          .cont ((okCells gd goal obs V cur ds).reverse ++ V)
            (acc ++ (okCells gd goal obs V cur ds).map (fun x => (x, moves + 1)))) := by
  intro ds
  induction ds with
  | nil =>
    intro V acc _
    right
    refine ⟨by simp, ?_⟩
    simp [expand, okCells]
  | cons d ds ih =>
    intro V acc hnd
    have hnd' : (ds.map (fun d => off cur d)).Nodup := (List.nodup_cons.mp hnd).2
    have hne : off cur d ∉ ds.map (fun d => off cur d) := (List.nodup_cons.mp hnd).1
    by_cases h1 : ¬ gd.contains_coordinates (off cur d) ∨ off cur d ∈ obs
    · have heq : expand gd goal obs cur moves (d :: ds) V acc =
          expand gd goal obs cur moves ds V acc := by
        simp only [expand]
        rw [if_pos h1]
      have hok : okDir gd goal obs V cur d = false := by
        simp only [okDir, decide_eq_false_iff_not]
        rintro ⟨hc, hob, _, _⟩
        rcases h1 with h1 | h1
        · exact h1 hc
        · exact hob h1
      have hcells : okCells gd goal obs V cur (d :: ds) = okCells gd goal obs V cur ds := by
        simp [okCells, List.filter_cons, hok]
      rcases ih V acc hnd' with ⟨⟨d', hd', hcond⟩, hE⟩ | ⟨hnone, hE⟩
      · exact Or.inl ⟨⟨d', List.mem_cons_of_mem _ hd', hcond⟩, heq ▸ hE⟩
      · refine Or.inr ⟨?_, ?_⟩
        · intro d' hd'
          rcases List.mem_cons.mp hd' with rfl | hd'
          · rintro ⟨hc, hob, _, _⟩
            rcases h1 with h1 | h1
            · exact h1 hc
            · exact hob h1
          · exact hnone d' hd'
        · rw [heq, hE, hcells]
    · push_neg at h1
      by_cases h2 : off cur d ∈ V
      · have heq : expand gd goal obs cur moves (d :: ds) V acc =
            expand gd goal obs cur moves ds V acc := by
          simp only [expand]
          rw [if_neg (by push_neg; exact h1), if_pos h2]
        have hok : okDir gd goal obs V cur d = false := by
          simp only [okDir, decide_eq_false_iff_not]
          rintro ⟨_, _, hv, _⟩
          exact hv h2
        have hcells : okCells gd goal obs V cur (d :: ds) =
            okCells gd goal obs V cur ds := by
          simp [okCells, List.filter_cons, hok]
        rcases ih V acc hnd' with ⟨⟨d', hd', hcond⟩, hE⟩ | ⟨hnone, hE⟩
        · exact Or.inl ⟨⟨d', List.mem_cons_of_mem _ hd', hcond⟩, heq ▸ hE⟩
        · refine Or.inr ⟨?_, ?_⟩
          · intro d' hd'
            rcases List.mem_cons.mp hd' with rfl | hd'
            · rintro ⟨_, _, hv, _⟩
              exact hv h2
            · exact hnone d' hd'
          · rw [heq, hE, hcells]
      · by_cases h3 : off cur d = goal
        · refine Or.inl ⟨⟨d, List.mem_cons_self d ds, h1.1, h1.2, h2, h3⟩, ?_⟩
          simp only [expand]
          rw [if_neg (by push_neg; exact h1), if_neg h2, if_pos h3]
        · have heq : expand gd goal obs cur moves (d :: ds) V acc =
              expand gd goal obs cur moves ds (off cur d :: V)
                (acc ++ [(off cur d, moves + 1)]) := by
            simp only [expand]
            rw [if_neg (by push_neg; exact h1), if_neg h2, if_neg h3]
          have hmemiff : ∀ d' ∈ ds, (off cur d' ∈ V ↔ off cur d' ∈ off cur d :: V) := by
            intro d' hd'
            constructor
            · exact fun hx => List.mem_cons_of_mem _ hx
            · intro hx
              rcases List.mem_cons.mp hx with hx | hx
              · exact absurd (hx ▸ List.mem_map_of_mem (fun d => off cur d) hd') hne
              · exact hx
          have hcellseq : okCells gd goal obs (off cur d :: V) cur ds =
              okCells gd goal obs V cur ds :=
            (okCells_congr ds hmemiff).symm
          have hok : okDir gd goal obs V cur d = true := by
            simp only [okDir, decide_eq_true_eq]
            exact ⟨h1.1, h1.2, h2, h3⟩
          have hcells : okCells gd goal obs V cur (d :: ds) =
              off cur d :: okCells gd goal obs V cur ds := by
            simp [okCells, List.filter_cons, hok]
          rcases ih (off cur d :: V) (acc ++ [(off cur d, moves + 1)]) hnd' with
            ⟨⟨d', hd', hc, hob, hv, hg⟩, hE⟩ | ⟨hnone, hE⟩
          · refine Or.inl ⟨⟨d', List.mem_cons_of_mem _ hd', hc, hob, ?_, hg⟩, heq ▸ hE⟩
            exact fun hx => hv (List.mem_cons_of_mem _ hx)
          · refine Or.inr ⟨?_, ?_⟩
            · intro d' hd'
              rcases List.mem_cons.mp hd' with rfl | hd'
              · rintro ⟨_, _, _, hg⟩
                exact h3 hg
              · rintro ⟨hc, hob, hv, hg⟩
                refine hnone d' hd' ⟨hc, hob, ?_, hg⟩
                intro hx
                rcases List.mem_cons.mp hx with hx | hx
                · exact h3 (hx ▸ hg)
                · exact hv hx
            · rw [heq, hE, hcellseq, hcells]
              simp [List.append_assoc]

/-! ### The BFS loop invariant (for claim C2, obstacle-free grids) -/

lemma directions_off_nodup (cur : Coordinates) :
    (DIRECTIONS.map (fun d => off cur d)).Nodup := by
  have hinj : Function.Injective (fun d : Int × Int => off cur d) := by
    rintro ⟨a1, a2⟩ ⟨b1, b2⟩ h
    simp only [off, Coordinates.mk.injEq] at h
    rw [Prod.mk.injEq]
    omega
  exact (by decide : DIRECTIONS.Nodup).map hinj

lemma pairwise_const_label (moves : Nat) (l : List Coordinates) :
    List.Pairwise (fun a b : Coordinates × Nat => a.2 ≤ b.2 ∧ b.2 ≤ a.2 + 1)
      (l.map (fun x => (x, moves + 1))) := by
  induction l with
  | nil => simp
  | cons a l ih =>
    simp only [List.map_cons, List.pairwise_cons]
    refine ⟨?_, ih⟩
    intro p hp
    obtain ⟨x, _, rfl⟩ := List.mem_map.mp hp
    exact ⟨le_rfl, Nat.le_succ _⟩

/-- The loop invariant of the BFS over an obstacle-free grid, tying the
queue `Q` and visited list `V` to the Chebyshev distance from `start`:
queue cells are visited; queue labels are exact distances; labels are
monotone and span at most two consecutive levels; the goal is never
visited; visited cells are in bounds; every visited cell with an unvisited
in-bounds neighbour is still queued; and every unvisited in-bounds cell has
a queued cell through which it is reachable within its distance budget. -/
structure BfsInv (gd : GridDimensions) (start goal : Coordinates)
    (Q : List (Coordinates × Nat)) (V : List Coordinates) : Prop where
  qcells : ∀ p ∈ Q, p.1 ∈ V
  labels : ∀ p ∈ Q, p.2 = cheb start p.1
  mono : List.Pairwise (fun a b : Coordinates × Nat => a.2 ≤ b.2 ∧ b.2 ≤ a.2 + 1) Q
  goalNot : goal ∉ V
  visInB : ∀ v ∈ V, gd.contains_coordinates v
  frontier : ∀ w ∈ V, ∀ d ∈ DIRECTIONS, gd.contains_coordinates (off w d) →
    off w d ∉ V → ∃ k, (w, k) ∈ Q
  wit : ∀ u, gd.contains_coordinates u → u ∉ V →
    ∃ c m, (c, m) ∈ Q ∧ m + cheb c u ≤ cheb start u

lemma bfsInv_init {gd : GridDimensions} {start goal : Coordinates}
    (hs : gd.contains_coordinates start) (hne : start ≠ goal) :
    BfsInv gd start goal [(start, 0)] [start] := by
  refine ⟨?_, ?_, ?_, ?_, ?_, ?_, ?_⟩
  · intro p hp
    rw [List.mem_singleton] at hp
    subst hp
    simp
  · intro p hp
    rw [List.mem_singleton] at hp
    subst hp
    simp [cheb_self]
  · simp
  · rw [List.mem_singleton]
    exact fun h => hne h.symm
  · intro v hv
    rw [List.mem_singleton] at hv
    subst hv
    exact hs
  · intro w hw d _ _ _
    rw [List.mem_singleton] at hw
    subst hw
    exact ⟨0, by simp⟩
  · intro u _ _
    exact ⟨start, 0, by simp, by omega⟩

/-- If one expansion round of a queue head satisfying the invariant sees the
goal, the returned value `moves + 1` is the Chebyshev distance from start to
goal. -/
lemma expand_found_value {gd : GridDimensions} {start goal cur : Coordinates} {moves : Nat}
    {rest : List (Coordinates × Nat)} {V : List Coordinates}
    (hgB : gd.contains_coordinates goal)
    (hInv : BfsInv gd start goal ((cur, moves) :: rest) V)
    (hhit : ∃ d ∈ DIRECTIONS, gd.contains_coordinates (off cur d) ∧
      off cur d ∉ ([] : List Coordinates) ∧ off cur d ∉ V ∧ off cur d = goal) :
    moves + 1 = cheb start goal := by
  obtain ⟨d, hd, _, _, _, hg⟩ := hhit
  obtain ⟨hqc, hlab, hmono, hgnot, hvinB, hfront, hwit⟩ := hInv
  have hheadlab : moves = cheb start cur := hlab (cur, moves) (List.mem_cons_self _ _)
  have hup : cheb start goal ≤ moves + 1 := by
    have h1 := cheb_triangle start cur goal
    have h2 := dir_cheb_le_one hd cur
    rw [hg] at h2
    omega
  have hlow : moves + 1 ≤ cheb start goal := by
    obtain ⟨c0, m0, hc0Q, hcond⟩ := hwit goal hgB hgnot
    have hc0V : c0 ∈ V := hqc _ hc0Q
    have hm0 : moves ≤ m0 := by
      rcases List.mem_cons.mp hc0Q with h | h
      · cases h
        exact le_rfl
      · exact ((List.pairwise_cons.mp hmono).1 _ h).1
    have hcne : c0 ≠ goal := fun h => hgnot (h ▸ hc0V)
    have hch : 1 ≤ cheb c0 goal := by
      by_contra hc
      push_neg at hc
      exact hcne (cheb_eq_zero (by omega))
    omega
  omega

/-- Preservation of the BFS invariant over one non-returning loop
iteration. -/
lemma bfsInv_preserved {gd : GridDimensions} {start goal cur : Coordinates} {moves : Nat}
    {rest : List (Coordinates × Nat)} {V : List Coordinates}
    (hInv : BfsInv gd start goal ((cur, moves) :: rest) V)
    (hnone : ∀ d ∈ DIRECTIONS, ¬ (gd.contains_coordinates (off cur d) ∧
      off cur d ∉ ([] : List Coordinates) ∧ off cur d ∉ V ∧ off cur d = goal)) :
    BfsInv gd start goal
      (rest ++ (okCells gd goal [] V cur DIRECTIONS).map (fun x => (x, moves + 1)))
      ((okCells gd goal [] V cur DIRECTIONS).reverse ++ V) := by
  set A := okCells gd goal [] V cur DIRECTIONS with hA
  have hAmem : ∀ x : Coordinates, x ∈ A ↔
      (∃ d ∈ DIRECTIONS, x = off cur d) ∧ gd.contains_coordinates x ∧ x ∉ V ∧ x ≠ goal := by
    intro x
    have h := @mem_okCells gd goal [] V cur DIRECTIONS x
    rw [hA]
    simpa using h
  have hVmem : ∀ x : Coordinates, x ∈ A.reverse ++ V ↔ x ∈ A ∨ x ∈ V := by
    intro x
    simp
  obtain ⟨hqc, hlab, hmono, hgnot, hvinB, hfront, hwit⟩ := hInv
  have hheadlab : moves = cheb start cur := hlab (cur, moves) (List.mem_cons_self _ _)
  have hmp := List.pairwise_cons.mp hmono
  have hrestlab : ∀ p ∈ rest, moves ≤ p.2 ∧ p.2 ≤ moves + 1 := fun p hp => hmp.1 p hp
  have hheadmin : ∀ p ∈ (cur, moves) :: rest, moves ≤ p.2 := by
    intro p hp
    rcases List.mem_cons.mp hp with rfl | hp
    · exact le_rfl
    · exact (hrestlab p hp).1
  -- exactness of the new labels
  have hlab' : ∀ p ∈ rest ++ A.map (fun x => (x, moves + 1)), p.2 = cheb start p.1 := by
    intro p hp
    rcases List.mem_append.mp hp with hp | hp
    · exact hlab p (List.mem_cons_of_mem _ hp)
    · obtain ⟨x, hxA, rfl⟩ := List.mem_map.mp hp
      show moves + 1 = cheb start x
      obtain ⟨⟨d, hd, rfl⟩, hxB, hxV, hxg⟩ := (hAmem x).mp hxA
      have hup : cheb start (off cur d) ≤ moves + 1 := by
        have h1 := cheb_triangle start cur (off cur d)
        have h2 := dir_cheb_le_one hd cur
        omega
      have hlow : moves + 1 ≤ cheb start (off cur d) := by
        obtain ⟨c0, m0, hc0Q, hcond⟩ := hwit (off cur d) hxB hxV
        have hc0V : c0 ∈ V := hqc (c0, m0) hc0Q
        have hm0 : moves ≤ m0 := hheadmin (c0, m0) hc0Q
        have hcne : c0 ≠ off cur d := fun h => hxV (h ▸ hc0V)
        have hch : 1 ≤ cheb c0 (off cur d) := by
          by_contra hc
          push_neg at hc
          exact hcne (cheb_eq_zero (by omega))
        omega
      omega
  -- the frontier property for the new state
  have hfront' : ∀ w ∈ A.reverse ++ V, ∀ d ∈ DIRECTIONS,
      gd.contains_coordinates (off w d) → off w d ∉ A.reverse ++ V →
      ∃ k, (w, k) ∈ rest ++ A.map (fun x => (x, moves + 1)) := by
    intro w hw d hd hinB hnotin
    have hnotA : off w d ∉ A := fun h => hnotin ((hVmem _).mpr (Or.inl h))
    have hnotV : off w d ∉ V := fun h => hnotin ((hVmem _).mpr (Or.inr h))
    rcases (hVmem w).mp hw with hwA | hwV
    · exact ⟨moves + 1, List.mem_append.mpr (Or.inr (List.mem_map_of_mem _ hwA))⟩
    · by_cases hwc : w = cur
      · subst hwc
        exfalso
        have hng : off w d ≠ goal := fun hg => hnone d hd ⟨hinB, by simp, hnotV, hg⟩
        exact hnotA ((hAmem _).mpr ⟨⟨d, hd, rfl⟩, hinB, hnotV, hng⟩)
      · obtain ⟨k, hk⟩ := hfront w hwV d hd hinB hnotV
        rcases List.mem_cons.mp hk with hk | hk
        · exact absurd (congrArg Prod.fst hk) hwc
        · exact ⟨k, List.mem_append.mpr (Or.inl hk)⟩
  refine ⟨?_, hlab', ?_, ?_, ?_, hfront', ?_⟩
  · -- queue cells are visited
    intro p hp
    rcases List.mem_append.mp hp with hp | hp
    · exact (hVmem _).mpr (Or.inr (hqc p (List.mem_cons_of_mem _ hp)))
    · obtain ⟨x, hxA, rfl⟩ := List.mem_map.mp hp
      exact (hVmem _).mpr (Or.inl hxA)
  · -- monotone two-level labels
    refine List.pairwise_append.mpr ⟨hmp.2, pairwise_const_label moves A, ?_⟩
    intro a ha b hb
    obtain ⟨x, _, rfl⟩ := List.mem_map.mp hb
    have := hrestlab a ha
    constructor
    · exact this.2
    · show moves + 1 ≤ a.2 + 1
      omega
  · -- goal unvisited
    intro hg
    rcases (hVmem goal).mp hg with hg | hg
    · exact ((hAmem goal).mp hg).2.2.2 rfl
    · exact hgnot hg
  · -- visited cells in bounds
    intro v hv
    rcases (hVmem v).mp hv with hv | hv
    · exact ((hAmem v).mp hv).2.1
    · exact hvinB v hv
  · -- witness property
    intro u huB huV'
    have huV : u ∉ V := fun h => huV' ((hVmem u).mpr (Or.inr h))
    obtain ⟨c0, m0, hc0Q, hcond⟩ := hwit u huB huV
    have hc0V : c0 ∈ V := hqc _ hc0Q
    have hc0B : gd.contains_coordinates c0 := hvinB c0 hc0V
    have hm0 : m0 = cheb start c0 := hlab _ hc0Q
    have hL1 : 1 ≤ cheb c0 u := by
      by_contra hc
      push_neg at hc
      have he := cheb_eq_zero (a := c0) (b := u) (by omega)
      exact huV (he ▸ hc0V)
    -- the last index along the greedy geodesic whose cell is newly visited
    set P : Nat → Prop := fun j => greedyIter c0 u j ∈ A.reverse ++ V with hP
    have hP0 : P 0 := by
      rw [hP]
      exact (hVmem c0).mpr (Or.inr hc0V)
    set j0 := Nat.findGreatest P (cheb c0 u) with hj0
    have hj0le : j0 ≤ cheb c0 u := Nat.findGreatest_le _
    have hj0P : P j0 := by
      rw [hj0]
      exact Nat.findGreatest_spec (Nat.zero_le _) hP0
    have hj0lt : j0 < cheb c0 u := by
      rcases Nat.lt_or_ge j0 (cheb c0 u) with h | h
      · exact h
      · exfalso
        have hj0L : j0 = cheb c0 u := by omega
        have := hj0P
        rw [hP, hj0L, greedyIter_cheb] at this
        exact huV' this
    have hmaxP : ∀ j, j0 < j → j ≤ cheb c0 u → ¬ P j := by
      intro j hj1 hj2
      rw [hj0] at hj1
      exact Nat.findGreatest_is_greatest hj1 hj2
    have hsuccV' : greedyIter c0 u (j0 + 1) ∉ A.reverse ++ V := by
      have := hmaxP (j0 + 1) (by omega) (by omega)
      rw [hP] at this
      exact this
    have hwB : gd.contains_coordinates (greedyIter c0 u j0) :=
      greedyIter_contains hc0B huB j0
    have hsuccB : gd.contains_coordinates (greedyIter c0 u (j0 + 1)) :=
      greedyIter_contains hc0B huB _
    have hpne : greedyIter c0 u j0 ≠ u := by
      intro h
      have hc := cheb_greedyIter c0 u j0
      rw [h, cheb_self] at hc
      omega
    have hdmem : stepDir (greedyIter c0 u j0) u ∈ DIRECTIONS := stepDir_mem hpne
    have hwV' : greedyIter c0 u j0 ∈ A.reverse ++ V := by
      have := hj0P
      rw [hP] at this
      exact this
    obtain ⟨k, hkQ⟩ := hfront' (greedyIter c0 u j0) hwV' _ hdmem
      (by rw [off_stepDir]; exact hsuccB) (by rw [off_stepDir]; exact hsuccV')
    have hklab : k = cheb start (greedyIter c0 u j0) := hlab' _ hkQ
    refine ⟨greedyIter c0 u j0, k, hkQ, ?_⟩
    have h1 := cheb_triangle start c0 (greedyIter c0 u j0)
    have h2 := cheb_greedyIter_left_le c0 u j0
    have h3 := cheb_greedyIter c0 u j0
    omega

/-- Soundness of the BFS loop on an obstacle-free grid: whenever the fuel
does not run out, the returned value is the Chebyshev distance. -/
lemma bfsAux_correct {gd : GridDimensions} {start goal : Coordinates}
    (hgB : gd.contains_coordinates goal) :
    ∀ (fuel : Nat) (Q : List (Coordinates × Nat)) (V : List Coordinates),
      BfsInv gd start goal Q V →
      ∀ r, bfsAux gd goal [] fuel Q V = some r → r = some (cheb start goal) := by
  intro fuel
  induction fuel with
  | zero =>
    intro Q V _ r hr
    simp [bfsAux] at hr
  | succ n ih =>
    intro Q V hInv r hr
    rcases Q with _ | ⟨⟨cur, moves⟩, rest⟩
    · exfalso
      obtain ⟨c0, m0, hc0Q, _⟩ := hInv.wit goal hgB hInv.goalNot
      simp at hc0Q
    · rw [bfsAux] at hr
      rcases expand_spec gd goal [] cur moves DIRECTIONS V [] (directions_off_nodup cur) with
        ⟨hhit, hE⟩ | ⟨hnone, hE⟩
      · rw [hE] at hr
        have hr' : some (some (moves + 1)) = some r := hr
        have hv := expand_found_value hgB hInv hhit
        injection hr' with hr''
        rw [← hr'', hv]
      · rw [hE] at hr
        have hr' : bfsAux gd goal [] n
            (rest ++ (okCells gd goal [] V cur DIRECTIONS).map (fun x => (x, moves + 1)))
            ((okCells gd goal [] V cur DIRECTIONS).reverse ++ V) = some r := hr
        exact ih _ _ (bfsInv_preserved hInv hnone) r hr'

/-- C2: on a positive-size grid with no obstacles, for distinct in-bounds
start and goal, `minimum_moves_to_reach_goal` returns exactly the
8-directional Chebyshev distance `max (abs dx) (abs dy)`. -/
theorem c2_no_obstacles_chebyshev (gd : GridDimensions) (start goal : Coordinates)
    (_hw : 0 < gd.width) (_hh : 0 < gd.height)
    (hs : gd.contains_coordinates start) (hg : gd.contains_coordinates goal)
    (hne : start ≠ goal) :
    minimum_moves_to_reach_goal gd start goal [] =
      some (max (goal.x - start.x).natAbs (goal.y - start.y).natAbs) := by
  have hb : (1 : Nat) + ((inBFinset gd) \ ([start] : List Coordinates).toFinset).card + 1 ≤
      bfsFuel gd := by
    have h1 : ((inBFinset gd) \ ([start] : List Coordinates).toFinset).card ≤
        (inBFinset gd).card := Finset.card_le_card Finset.sdiff_subset
    have h2 := inBFinset_card_le gd
    simp only [bfsFuel]
    omega
  have hsome := bfsAux_isSome gd goal [] (bfsFuel gd) [(start, 0)] [start] (by simpa using hb)
  obtain ⟨r, hr⟩ := Option.isSome_iff_exists.mp hsome
  have hval := bfsAux_correct hg (bfsFuel gd) [(start, 0)] [start] (bfsInv_init hs hne) r hr
  rw [minimum_moves_to_reach_goal, if_neg (List.not_mem_nil goal), if_neg hne, hr, hval]
  rfl

theorem c2_witness :
    (0 : Int) < 5 ∧ GridDimensions.contains_coordinates ⟨5, 5⟩ ⟨0, 0⟩ ∧
      GridDimensions.contains_coordinates ⟨5, 5⟩ ⟨4, 4⟩ ∧
      minimum_moves_to_reach_goal ⟨5, 5⟩ ⟨0, 0⟩ ⟨4, 4⟩ [] = some 4 := by
  refine ⟨by decide, by decide, by decide, ?_⟩
  rw [c2_no_obstacles_chebyshev ⟨5, 5⟩ ⟨0, 0⟩ ⟨4, 4⟩ (by decide) (by decide) (by decide)
    (by decide) (by decide)]
  rfl

/-- C10: the BFS loop of `minimum_moves_to_reach_goal` terminates on every
input: the visited set lets each cell be enqueued at most once, so the fuel
`bfsFuel gd` (grid-cell count plus two) is never exhausted and the function
always returns either a move count or the unreachable result. -/
theorem c10_bfs_terminates (gd : GridDimensions) (start goal : Coordinates)
    (obs : List Coordinates) :
    ∃ r : Option Nat,
      bfsAux gd goal obs (bfsFuel gd) [(start, 0)] [start] = some r ∧
      minimum_moves_to_reach_goal gd start goal obs =
        if goal ∈ obs then none else if start = goal then some 0 else r := by
  have hb : (1 : Nat) + ((inBFinset gd) \ ([start] : List Coordinates).toFinset).card + 1 ≤
      bfsFuel gd := by
    have h1 : ((inBFinset gd) \ ([start] : List Coordinates).toFinset).card ≤
        (inBFinset gd).card := Finset.card_le_card (Finset.sdiff_subset)
    have h2 := inBFinset_card_le gd
    simp only [bfsFuel]
    omega
  have h := bfsAux_isSome gd goal obs (bfsFuel gd) [(start, 0)] [start] (by simpa using hb)
  obtain ⟨r, hr⟩ := Option.isSome_iff_exists.mp h
  refine ⟨r, hr, ?_⟩
  rw [minimum_moves_to_reach_goal]
  split
  · rfl
  · split
    · rfl
    · rw [hr]; rfl

/-- C4 counterexample: with the goal itself listed as an obstacle, the
goal-in-obstacles check fires before the start-equals-goal special case, so
`minimum_moves_to_reach_goal(grid, c, c, [c])` returns the unreachable
result, not 0. -/
theorem c4_counterexample :
    minimum_moves_to_reach_goal ⟨1, 1⟩ ⟨0, 0⟩ ⟨0, 0⟩ [⟨0, 0⟩] = none ∧
      minimum_moves_to_reach_goal ⟨1, 1⟩ ⟨0, 0⟩ ⟨0, 0⟩ [⟨0, 0⟩] ≠ some 0 := by
  decide

/-- C4 amended: for every grid, every coordinate `c` and every obstacle list
that does not contain `c`, `minimum_moves_to_reach_goal(grid, c, c, obs)`
returns 0 without search. -/
theorem c4_amended_start_eq_goal (gd : GridDimensions) (c : Coordinates)
    (obs : List Coordinates) (h : c ∉ obs) :
    minimum_moves_to_reach_goal gd c c obs = some 0 := by
  rw [minimum_moves_to_reach_goal, if_neg h, if_pos rfl]

theorem c4_amended_witness :
    (⟨0, 0⟩ : Coordinates) ∉ ([⟨1, 1⟩] : List Coordinates) ∧
      minimum_moves_to_reach_goal ⟨2, 2⟩ ⟨0, 0⟩ ⟨0, 0⟩ [⟨1, 1⟩] = some 0 :=
  ⟨by decide, c4_amended_start_eq_goal ⟨2, 2⟩ ⟨0, 0⟩ [⟨1, 1⟩] (by decide)⟩

/-- C5: whenever the goal coordinate is listed as an obstacle,
`minimum_moves_to_reach_goal` returns the unreachable result, for every grid,
start and obstacle list. -/
theorem c5_goal_obstacle_unreachable (gd : GridDimensions)
    (start goal : Coordinates) (obs : List Coordinates) (h : goal ∈ obs) :
    minimum_moves_to_reach_goal gd start goal obs = none := by
  rw [minimum_moves_to_reach_goal, if_pos h]

theorem c5_witness :
    (⟨3, 3⟩ : Coordinates) ∈ ([⟨1, 2⟩, ⟨3, 3⟩] : List Coordinates) ∧
      minimum_moves_to_reach_goal ⟨9, 9⟩ ⟨0, 0⟩ ⟨3, 3⟩ [⟨1, 2⟩, ⟨3, 3⟩] = none :=
  ⟨by decide, c5_goal_obstacle_unreachable ⟨9, 9⟩ ⟨0, 0⟩ ⟨3, 3⟩ [⟨1, 2⟩, ⟨3, 3⟩] (by decide)⟩

/-- C6: for non-negative move counts and positive velocity the conversion
returns the exact rational ceiling of `moves / velocity` (equivalently the
rounding-up integer division), and it errors exactly when the velocity is
not positive. -/
theorem c6_time_step_conversion (m v : Int) :
    (0 ≤ m → 0 < v →
      calculate_minimum_time_steps_to_reach_goal m v = .ok ⌈(m : ℚ) / (v : ℚ)⌉ ∧
        (⌈(m : ℚ) / (v : ℚ)⌉ : Int) = (m + v - 1) / v) ∧
      ((∃ e, calculate_minimum_time_steps_to_reach_goal m v = .error e) ↔ v ≤ 0) := by
  constructor
  · intro _ hv
    exact ⟨by rw [calculate_minimum_time_steps_to_reach_goal, if_neg (by omega)],
      ceil_div_eq_ediv m v hv⟩
  · constructor
    · rintro ⟨e, he⟩
      by_contra hv
      rw [calculate_minimum_time_steps_to_reach_goal, if_neg hv] at he
      cases he
    · intro hv
      exact ⟨_, by rw [calculate_minimum_time_steps_to_reach_goal, if_pos hv]⟩

theorem c6_witness :
    calculate_minimum_time_steps_to_reach_goal 5 2 = .ok 3 ∧
      calculate_minimum_time_steps_to_reach_goal 4 2 = .ok 2 := by
  have h5 := (c6_time_step_conversion 5 2).1 (by omega) (by omega)
  have h4 := (c6_time_step_conversion 4 2).1 (by omega) (by omega)
  constructor
  · rw [h5.1, h5.2]; rfl
  · rw [h4.1, h4.2]; rfl

/-- C9: `minimum_moves_to_reach_goal` never checks the start cell against
the obstacle list or the grid bounds: there are inputs where the start is an
obstacle (and inputs where the start is out of bounds) while the goal is a
distinct in-bounds non-obstacle cell, and the function returns a finite move
count. -/
theorem c9_start_unchecked :
    ((⟨0, 0⟩ : Coordinates) ∈ ([⟨0, 0⟩] : List Coordinates) ∧
      (⟨1, 1⟩ : Coordinates) ∉ ([⟨0, 0⟩] : List Coordinates) ∧
      GridDimensions.contains_coordinates ⟨2, 2⟩ ⟨1, 1⟩ ∧
      minimum_moves_to_reach_goal ⟨2, 2⟩ ⟨0, 0⟩ ⟨1, 1⟩ [⟨0, 0⟩] = some 1) ∧
    (¬ GridDimensions.contains_coordinates ⟨2, 2⟩ ⟨2, 2⟩ ∧
      GridDimensions.contains_coordinates ⟨2, 2⟩ ⟨1, 1⟩ ∧
      minimum_moves_to_reach_goal ⟨2, 2⟩ ⟨2, 2⟩ ⟨1, 1⟩ [] = some 1) := by
  decide

/-! ### Semantic predicates and the configuration objects -/

/-- `are_obstacles_unique`: `len(set(l)) == len(l)`, i.e. no duplicates. -/
def are_obstacles_unique (obstacles_coordinates : List Coordinates) : Prop :=
  obstacles_coordinates.Nodup

instance (l : List Coordinates) : Decidable (are_obstacles_unique l) :=
  List.nodupDecidable l

/-- `are_obstacles_in_grid` from `helpers.py`. -/
def are_obstacles_in_grid (obstacles_coordinates : List Coordinates)
    (grid_dimensions : GridDimensions) : Prop :=
  ∀ c ∈ obstacles_coordinates, grid_dimensions.contains_coordinates c

instance (l : List Coordinates) (gd : GridDimensions) :
    Decidable (are_obstacles_in_grid l gd) :=
  List.decidableBAll _ l

/-- `does_agent_start_in_grid` from `helpers.py`. -/
def does_agent_start_in_grid (start_coordinates : Coordinates)
    (grid_dimensions : GridDimensions) : Prop :=
  grid_dimensions.contains_coordinates start_coordinates

instance (c : Coordinates) (gd : GridDimensions) :
    Decidable (does_agent_start_in_grid c gd) :=
  decidable_of_iff (gd.contains_coordinates c) Iff.rfl

/-- `is_agent_goal_in_grid` from `helpers.py`. -/
def is_agent_goal_in_grid (goal_coordinates : Coordinates)
    (grid_dimensions : GridDimensions) : Prop :=
  grid_dimensions.contains_coordinates goal_coordinates

instance (c : Coordinates) (gd : GridDimensions) :
    Decidable (is_agent_goal_in_grid c gd) :=
  decidable_of_iff (gd.contains_coordinates c) Iff.rfl

/-- `are_seekers_unique` from `helpers.py`. -/
def are_seekers_unique (seekers_start_coordinates : List Coordinates) : Prop :=
  seekers_start_coordinates.Nodup

instance (l : List Coordinates) : Decidable (are_seekers_unique l) :=
  List.nodupDecidable l

/-- `do_seekers_start_in_grid` from `helpers.py`. -/
def do_seekers_start_in_grid (seekers_start_coordinates : List Coordinates)
    (grid_dimensions : GridDimensions) : Prop :=
  ∀ c ∈ seekers_start_coordinates, grid_dimensions.contains_coordinates c

instance (l : List Coordinates) (gd : GridDimensions) :
    Decidable (do_seekers_start_in_grid l gd) :=
  List.decidableBAll _ l

/-- `intersects` from `helpers.py`: the two coordinate lists share an
element. -/
def intersects (first_coordinates_list second_coordinates_list : List Coordinates) : Prop :=
  ∃ x ∈ first_coordinates_list, x ∈ second_coordinates_list

instance (a b : List Coordinates) : Decidable (intersects a b) :=
  List.decidableBEx _ a

/-- `is_visibility_radius_within_grid_dimensions` from `helpers.py`. -/
def is_visibility_radius_within_grid_dimensions (visibility_radius : Int)
    (grid_dimensions : GridDimensions) : Prop :=
  visibility_radius ≤ max grid_dimensions.width grid_dimensions.height

instance (vr : Int) (gd : GridDimensions) :
    Decidable (is_visibility_radius_within_grid_dimensions vr gd) :=
  decidable_of_iff (vr ≤ max gd.width gd.height) Iff.rfl

/-- `AgentConfiguration` from `configuration.py`. -/
structure AgentConfiguration where
  start_coordinates : Coordinates
  goal_coordinates : Coordinates
  velocity : Int
  visibility_radius : Int
deriving DecidableEq, Repr

/-- `SeekerConfiguration` from `configuration.py`. -/
structure SeekerConfiguration where
  start_coordinates : Coordinates
  velocity : Int
deriving DecidableEq, Repr

/-- `EnvironmentConfiguration` from `configuration.py`. -/
structure EnvironmentConfiguration where
  grid_dimensions : GridDimensions
  obstacles_coordinates : List Coordinates
  episode_time_limit : Int
deriving DecidableEq, Repr

/-- `SystemConfiguration` from `configuration.py`. -/
structure SystemConfiguration where
  agent : AgentConfiguration
  seekers : List SeekerConfiguration
  environment : EnvironmentConfiguration
  num_seekers : Int
deriving DecidableEq, Repr

/-- `validate_system_configuration` from `helpers.py`: the semantic
validator, raising (modelled as `Except.error`) on the first violated
invariant, in source order.  The goal-versus-seeker-start overlap check is
commented out in the source (a `TODO`), and is correspondingly absent
here. -/
def validate_system_configuration (sc : SystemConfiguration) : Except String Unit :=
  if ¬ are_obstacles_unique sc.environment.obstacles_coordinates then
    .error "The obstacles coordinates are not unique"
  else if ¬ are_obstacles_in_grid sc.environment.obstacles_coordinates
      sc.environment.grid_dimensions then
    .error "The obstacles coordinates are not in the grid dimensions"
  else if ¬ does_agent_start_in_grid sc.agent.start_coordinates
      sc.environment.grid_dimensions then
    .error "The agents start coordinates are not in the grid dimensions"
  else if ¬ is_agent_goal_in_grid sc.agent.goal_coordinates
      sc.environment.grid_dimensions then
    .error "The agents goal coordinates are not in the grid dimensions"
  else if ¬ are_seekers_unique (sc.seekers.map (fun s => s.start_coordinates)) then
    .error "The seekers start coordinates are not unique"
  else if ¬ do_seekers_start_in_grid (sc.seekers.map (fun s => s.start_coordinates))
      sc.environment.grid_dimensions then
    .error "The seekers start coordinates are not in the grid dimensions"
  else if intersects [sc.agent.start_coordinates] sc.environment.obstacles_coordinates then
    .error "The agents start coordinates intersect with an obstacle"
  else if intersects [sc.agent.start_coordinates] [sc.agent.goal_coordinates] then
    .error "The agents start coordinates intersect with the agents goal coordinates"
  else if intersects [sc.agent.start_coordinates]
      (sc.seekers.map (fun s => s.start_coordinates)) then
    .error "The agents start coordinates intersect with a seekers start coordinates"
  else if intersects [sc.agent.goal_coordinates] sc.environment.obstacles_coordinates then
    .error "The agents goal coordinates intersect with an obstacle"
  else if intersects (sc.seekers.map (fun s => s.start_coordinates))
      sc.environment.obstacles_coordinates then
    .error "The seekers start coordinates intersect with an obstacle"
  else
    match minimum_moves_to_reach_goal sc.environment.grid_dimensions
        sc.agent.start_coordinates sc.agent.goal_coordinates
        sc.environment.obstacles_coordinates with
    | none =>
      .error "The agent cannot reach the goal coordinates from the start coordinates given the obstacles"
    | some minimum_moves =>
      match calculate_minimum_time_steps_to_reach_goal (minimum_moves : Int)
          sc.agent.velocity with
      | .error e => .error e
      | .ok minimum_time_steps =>
        if ¬ is_episode_time_limit_sufficient sc.environment.episode_time_limit
            minimum_time_steps then
          .error "The agent cannot reach the goal coordinates within the episode time limit"
        else if ¬ is_visibility_radius_within_grid_dimensions sc.agent.visibility_radius
            sc.environment.grid_dimensions then
          .error "The agents visibility radius exceeds the grid dimensions"
        else
          .ok ()

/-! ### The specified check order (refinement target for claim C3) -/

/-- Modelled from the spec (§4.5): the fixed list of semantic checks, in the
specified order, each paired with the message of the error raised when it
fails.  The time-budget entry converts the minimum move count to time steps
at the agent velocity, rounding up, exactly as §3 words it. -/
def semanticCheckList (sc : SystemConfiguration) : List (Bool × String) :=
  [ (decide (are_obstacles_unique sc.environment.obstacles_coordinates),
      "The obstacles coordinates are not unique"),
    (decide (are_obstacles_in_grid sc.environment.obstacles_coordinates
        sc.environment.grid_dimensions),
      "The obstacles coordinates are not in the grid dimensions"),
    (decide (does_agent_start_in_grid sc.agent.start_coordinates
        sc.environment.grid_dimensions),
      "The agents start coordinates are not in the grid dimensions"),
    (decide (is_agent_goal_in_grid sc.agent.goal_coordinates
        sc.environment.grid_dimensions),
      "The agents goal coordinates are not in the grid dimensions"),
    (decide (are_seekers_unique (sc.seekers.map (fun s => s.start_coordinates))),
      "The seekers start coordinates are not unique"),
    (decide (do_seekers_start_in_grid (sc.seekers.map (fun s => s.start_coordinates))
        sc.environment.grid_dimensions),
      "The seekers start coordinates are not in the grid dimensions"),
    (!decide (intersects [sc.agent.start_coordinates] sc.environment.obstacles_coordinates),
      "The agents start coordinates intersect with an obstacle"),
    (!decide (intersects [sc.agent.start_coordinates] [sc.agent.goal_coordinates]),
      "The agents start coordinates intersect with the agents goal coordinates"),
    (!decide (intersects [sc.agent.start_coordinates]
        (sc.seekers.map (fun s => s.start_coordinates))),
      "The agents start coordinates intersect with a seekers start coordinates"),
    (!decide (intersects [sc.agent.goal_coordinates] sc.environment.obstacles_coordinates),
      "The agents goal coordinates intersect with an obstacle"),
    (!decide (intersects (sc.seekers.map (fun s => s.start_coordinates))
        sc.environment.obstacles_coordinates),
      "The seekers start coordinates intersect with an obstacle"),
    ((minimum_moves_to_reach_goal sc.environment.grid_dimensions sc.agent.start_coordinates
        sc.agent.goal_coordinates sc.environment.obstacles_coordinates).isSome,
      "The agent cannot reach the goal coordinates from the start coordinates given the obstacles"),
    ((match minimum_moves_to_reach_goal sc.environment.grid_dimensions
        sc.agent.start_coordinates sc.agent.goal_coordinates
        sc.environment.obstacles_coordinates with
      | none => true
      | some m => decide ((⌈((m : Int) : ℚ) / (sc.agent.velocity : ℚ)⌉ : Int) ≤
          sc.environment.episode_time_limit)),
      "The agent cannot reach the goal coordinates within the episode time limit"),
    (decide (is_visibility_radius_within_grid_dimensions sc.agent.visibility_radius
        sc.environment.grid_dimensions),
      "The agents visibility radius exceeds the grid dimensions") ]

/-- Modelled from the spec (§4.5): run the checks of `semanticCheckList` in
order and raise the error of the first one that fails; succeed when all
pass. -/
def specValidate (sc : SystemConfiguration) : Except String Unit :=
  match (semanticCheckList sc).find? (fun p => !p.1) with
  | some p => .error p.2
  | none => .ok ()

/-- The validator agrees with the specified ordered fail-fast check list on
every configuration whose agent velocity is positive (as the data model
guarantees). -/
lemma validate_eq_specValidate (sc : SystemConfiguration)
    (hv : 0 < sc.agent.velocity) :
    validate_system_configuration sc = specValidate sc := by
  unfold validate_system_configuration specValidate semanticCheckList
  by_cases h1 : are_obstacles_unique sc.environment.obstacles_coordinates
  case neg => rw [if_pos h1, List.find?_cons_of_pos _ (by simp [h1])]
  rw [if_neg (not_not_intro h1), List.find?_cons_of_neg _ (by simp [h1])]
  by_cases h2 : are_obstacles_in_grid sc.environment.obstacles_coordinates
      sc.environment.grid_dimensions
  case neg => rw [if_pos h2, List.find?_cons_of_pos _ (by simp [h2])]
  rw [if_neg (not_not_intro h2), List.find?_cons_of_neg _ (by simp [h2])]
  by_cases h3 : does_agent_start_in_grid sc.agent.start_coordinates
      sc.environment.grid_dimensions
  case neg => rw [if_pos h3, List.find?_cons_of_pos _ (by simp [h3])]
  rw [if_neg (not_not_intro h3), List.find?_cons_of_neg _ (by simp [h3])]
  by_cases h4 : is_agent_goal_in_grid sc.agent.goal_coordinates
      sc.environment.grid_dimensions
  case neg => rw [if_pos h4, List.find?_cons_of_pos _ (by simp [h4])]
  rw [if_neg (not_not_intro h4), List.find?_cons_of_neg _ (by simp [h4])]
  by_cases h5 : are_seekers_unique (sc.seekers.map (fun s => s.start_coordinates))
  case neg => rw [if_pos h5, List.find?_cons_of_pos _ (by simp [h5])]
  rw [if_neg (not_not_intro h5), List.find?_cons_of_neg _ (by simp [h5])]
  by_cases h6 : do_seekers_start_in_grid (sc.seekers.map (fun s => s.start_coordinates))
      sc.environment.grid_dimensions
  case neg => rw [if_pos h6, List.find?_cons_of_pos _ (by simp [h6])]
  rw [if_neg (not_not_intro h6), List.find?_cons_of_neg _ (by simp [h6])]
  by_cases h7 : intersects [sc.agent.start_coordinates] sc.environment.obstacles_coordinates
  case pos => rw [if_pos h7, List.find?_cons_of_pos _ (by simp [h7])]
  rw [if_neg h7, List.find?_cons_of_neg _ (by simp [h7])]
  by_cases h8 : intersects [sc.agent.start_coordinates] [sc.agent.goal_coordinates]
  case pos => rw [if_pos h8, List.find?_cons_of_pos _ (by simp [h8])]
  rw [if_neg h8, List.find?_cons_of_neg _ (by simp [h8])]
  by_cases h9 : intersects [sc.agent.start_coordinates]
      (sc.seekers.map (fun s => s.start_coordinates))
  case pos => rw [if_pos h9, List.find?_cons_of_pos _ (by simp [h9])]
  rw [if_neg h9, List.find?_cons_of_neg _ (by simp [h9])]
  by_cases h10 : intersects [sc.agent.goal_coordinates] sc.environment.obstacles_coordinates
  case pos => rw [if_pos h10, List.find?_cons_of_pos _ (by simp [h10])]
  rw [if_neg h10, List.find?_cons_of_neg _ (by simp [h10])]
  by_cases h11 : intersects (sc.seekers.map (fun s => s.start_coordinates))
      sc.environment.obstacles_coordinates
  case pos => rw [if_pos h11, List.find?_cons_of_pos _ (by simp [h11])]
  rw [if_neg h11, List.find?_cons_of_neg _ (by simp [h11])]
  cases hmm : minimum_moves_to_reach_goal sc.environment.grid_dimensions
      sc.agent.start_coordinates sc.agent.goal_coordinates
      sc.environment.obstacles_coordinates with
  | none =>
    rw [List.find?_cons_of_pos _ (by simp)]
  | some m =>
    rw [List.find?_cons_of_neg _ (by simp)]
    dsimp only
    rw [calc_time_steps_ok ((m : Nat) : Int) sc.agent.velocity hv]
    dsimp only
    rw [ceil_div_eq_ediv ((m : Nat) : Int) sc.agent.velocity hv]
    simp only [is_episode_time_limit_sufficient, ge_iff_le]
    by_cases h13 : ((m : Int) + sc.agent.velocity - 1) / sc.agent.velocity ≤
        sc.environment.episode_time_limit
    case neg => rw [if_pos h13, List.find?_cons_of_pos _ (by simp [h13])]
    rw [if_neg (not_not_intro h13), List.find?_cons_of_neg _ (by simp [h13])]
    by_cases h14 : is_visibility_radius_within_grid_dimensions sc.agent.visibility_radius
        sc.environment.grid_dimensions
    case neg => rw [if_pos h14, List.find?_cons_of_pos _ (by simp [h14])]
    rw [if_neg (not_not_intro h14), List.find?_cons_of_neg _ (by simp [h14])]
    rfl

/-! ### Success of the validator as a conjunction of the invariants -/

lemma specValidate_ok_iff (sc : SystemConfiguration) :
    specValidate sc = .ok () ↔ ∀ p ∈ semanticCheckList sc, p.1 = true := by
  unfold specValidate
  cases hf : (semanticCheckList sc).find? (fun p => !p.1) with
  | some p =>
    constructor
    · intro h
      cases h
    · intro hall
      exfalso
      have hp := List.find?_some hf
      have hmem := List.mem_of_find?_eq_some hf
      have := hall p hmem
      simp [this] at hp
  | none =>
    simp only [true_iff]
    intro p hp
    have := List.find?_eq_none.mp hf p hp
    simpa using this

/-- The full list of semantic invariants of spec §3, as enforced by the
validator: uniqueness, containment, the five overlap prohibitions (the
goal/seeker-start pair deliberately absent), reachability together with the
time budget, and the visibility bound. -/
def semanticInvariantsHold (sc : SystemConfiguration) : Prop :=
  are_obstacles_unique sc.environment.obstacles_coordinates ∧
  are_obstacles_in_grid sc.environment.obstacles_coordinates
    sc.environment.grid_dimensions ∧
  does_agent_start_in_grid sc.agent.start_coordinates sc.environment.grid_dimensions ∧
  is_agent_goal_in_grid sc.agent.goal_coordinates sc.environment.grid_dimensions ∧
  are_seekers_unique (sc.seekers.map (fun s => s.start_coordinates)) ∧
  do_seekers_start_in_grid (sc.seekers.map (fun s => s.start_coordinates))
    sc.environment.grid_dimensions ∧
  ¬ intersects [sc.agent.start_coordinates] sc.environment.obstacles_coordinates ∧
  ¬ intersects [sc.agent.start_coordinates] [sc.agent.goal_coordinates] ∧
  ¬ intersects [sc.agent.start_coordinates]
    (sc.seekers.map (fun s => s.start_coordinates)) ∧
  ¬ intersects [sc.agent.goal_coordinates] sc.environment.obstacles_coordinates ∧
  ¬ intersects (sc.seekers.map (fun s => s.start_coordinates))
    sc.environment.obstacles_coordinates ∧
  (∃ m : Nat, minimum_moves_to_reach_goal sc.environment.grid_dimensions
      sc.agent.start_coordinates sc.agent.goal_coordinates
      sc.environment.obstacles_coordinates = some m ∧
    (⌈((m : Int) : ℚ) / (sc.agent.velocity : ℚ)⌉ : Int) ≤
      sc.environment.episode_time_limit) ∧
  is_visibility_radius_within_grid_dimensions sc.agent.visibility_radius
    sc.environment.grid_dimensions

lemma checkList_all_iff (sc : SystemConfiguration) :
    (∀ p ∈ semanticCheckList sc, p.1 = true) ↔ semanticInvariantsHold sc := by
  unfold semanticCheckList semanticInvariantsHold
  cases hmm : minimum_moves_to_reach_goal sc.environment.grid_dimensions
      sc.agent.start_coordinates sc.agent.goal_coordinates
      sc.environment.obstacles_coordinates with
  | none => simp [hmm]
  | some m => simp [hmm]

lemma validate_ok_iff (sc : SystemConfiguration) (hv : 0 < sc.agent.velocity) :
    validate_system_configuration sc = .ok () ↔ semanticInvariantsHold sc := by
  rw [validate_eq_specValidate sc hv, specValidate_ok_iff, checkList_all_iff]

/-! ### Claims C3, C7, C8 -/

/-- C3: on every configuration with positive agent velocity (as the data
model guarantees), the validator equals the fail-fast run of the fixed
ordered check list of spec §4.5 — it raises the error of the first violated
invariant in that order — and it returns without error exactly when all the
invariants hold. -/
theorem c3_fixed_order_fail_fast (sc : SystemConfiguration)
    (hv : 0 < sc.agent.velocity) :
    validate_system_configuration sc = specValidate sc ∧
      (validate_system_configuration sc = .ok () ↔ semanticInvariantsHold sc) :=
  ⟨validate_eq_specValidate sc hv, validate_ok_iff sc hv⟩

/-- A small concrete configuration: 3x3 grid, agent from (0,0) to (2,2) at
velocity 1, one seeker at (2,0), no obstacles, time limit 2. -/
def sampleConfig : SystemConfiguration :=
  ⟨⟨⟨0, 0⟩, ⟨2, 2⟩, 1, 1⟩, [⟨⟨2, 0⟩, 1⟩], ⟨⟨3, 3⟩, [], 2⟩, 1⟩

/-- Like `sampleConfig` but with duplicated obstacles, so validation fails
on the first check. -/
def sampleConfigDupObstacles : SystemConfiguration :=
  ⟨⟨⟨0, 0⟩, ⟨2, 2⟩, 1, 1⟩, [⟨⟨2, 0⟩, 1⟩], ⟨⟨3, 3⟩, [⟨1, 0⟩, ⟨1, 0⟩], 5⟩, 1⟩

/-- Like `sampleConfig` but with the single seeker starting exactly on the
agent goal, and a comfortable time limit. -/
def sampleConfigGoalSeeker : SystemConfiguration :=
  ⟨⟨⟨0, 0⟩, ⟨2, 2⟩, 1, 1⟩, [⟨⟨2, 2⟩, 1⟩], ⟨⟨3, 3⟩, [], 5⟩, 1⟩

theorem c3_witness :
    (0 : Int) < sampleConfigDupObstacles.agent.velocity ∧
      (validate_system_configuration sampleConfigDupObstacles =
          specValidate sampleConfigDupObstacles ∧
        (validate_system_configuration sampleConfigDupObstacles = .ok () ↔
          semanticInvariantsHold sampleConfigDupObstacles)) :=
  ⟨by decide, c3_fixed_order_fail_fast sampleConfigDupObstacles (by decide)⟩

/-- C7: for a configuration satisfying every semantic invariant other than
the time budget, with the goal reachable in `m` minimum moves, validation
succeeds exactly when the episode time limit is at least the rounded-up
quotient of `m` by the velocity; in particular it rejects at
`ceil(m/v) - 1` and accepts at `ceil(m/v)`. -/
theorem c7_time_budget_boundary (sc : SystemConfiguration) (m : Nat)
    (hv : 0 < sc.agent.velocity)
    (h1 : are_obstacles_unique sc.environment.obstacles_coordinates)
    (h2 : are_obstacles_in_grid sc.environment.obstacles_coordinates
      sc.environment.grid_dimensions)
    (h3 : does_agent_start_in_grid sc.agent.start_coordinates
      sc.environment.grid_dimensions)
    (h4 : is_agent_goal_in_grid sc.agent.goal_coordinates
      sc.environment.grid_dimensions)
    (h5 : are_seekers_unique (sc.seekers.map (fun s => s.start_coordinates)))
    (h6 : do_seekers_start_in_grid (sc.seekers.map (fun s => s.start_coordinates))
      sc.environment.grid_dimensions)
    (h7 : ¬ intersects [sc.agent.start_coordinates] sc.environment.obstacles_coordinates)
    (h8 : ¬ intersects [sc.agent.start_coordinates] [sc.agent.goal_coordinates])
    (h9 : ¬ intersects [sc.agent.start_coordinates]
      (sc.seekers.map (fun s => s.start_coordinates)))
    (h10 : ¬ intersects [sc.agent.goal_coordinates] sc.environment.obstacles_coordinates)
    (h11 : ¬ intersects (sc.seekers.map (fun s => s.start_coordinates))
      sc.environment.obstacles_coordinates)
    (h12 : minimum_moves_to_reach_goal sc.environment.grid_dimensions
      sc.agent.start_coordinates sc.agent.goal_coordinates
      sc.environment.obstacles_coordinates = some m)
    (h14 : is_visibility_radius_within_grid_dimensions sc.agent.visibility_radius
      sc.environment.grid_dimensions) :
    validate_system_configuration sc = .ok () ↔
      (⌈((m : Int) : ℚ) / (sc.agent.velocity : ℚ)⌉ : Int) ≤
        sc.environment.episode_time_limit := by
  rw [validate_ok_iff sc hv]
  unfold semanticInvariantsHold
  constructor
  · rintro ⟨-, -, -, -, -, -, -, -, -, -, -, ⟨m', hm', hle⟩, -⟩
    rw [h12] at hm'
    injection hm' with h
    subst h
    exact hle
  · intro hle
    exact ⟨h1, h2, h3, h4, h5, h6, h7, h8, h9, h10, h11, ⟨m, h12, hle⟩, h14⟩

theorem c7_witness : validate_system_configuration sampleConfig = .ok () := by
  refine (c7_time_budget_boundary sampleConfig 2 (by decide) (by decide) (by decide)
    (by decide) (by decide) (by decide) (by decide) (by decide) (by decide) (by decide)
    (by decide) (by decide) (by decide) (by decide)).mpr ?_
  show (⌈((2 : Int) : ℚ) / ((1 : Int) : ℚ)⌉ : Int) ≤ 2
  rw [ceil_div_eq_ediv 2 1 (by omega)]
  decide

/-- C8: a configuration whose agent goal coincides with some seeker start,
but which satisfies all the semantic invariants the validator does check,
passes validation: the goal/seeker-start overlap is not checked. -/
theorem c8_goal_seeker_overlap_unchecked (sc : SystemConfiguration)
    (hv : 0 < sc.agent.velocity)
    (hinv : semanticInvariantsHold sc)
    (_hoverlap : sc.agent.goal_coordinates ∈
      sc.seekers.map (fun s => s.start_coordinates)) :
    validate_system_configuration sc = .ok () :=
  (validate_ok_iff sc hv).mpr hinv

theorem c8_witness :
    sampleConfigGoalSeeker.agent.goal_coordinates ∈
        sampleConfigGoalSeeker.seekers.map (fun s => s.start_coordinates) ∧
      validate_system_configuration sampleConfigGoalSeeker = .ok () := by
  have hinv : semanticInvariantsHold sampleConfigGoalSeeker := by
    refine ⟨by decide, by decide, by decide, by decide, by decide, by decide, by decide,
      by decide, by decide, by decide, by decide, ⟨2, by decide, ?_⟩, by decide⟩
    show (⌈((2 : Int) : ℚ) / ((1 : Int) : ℚ)⌉ : Int) ≤ 5
    rw [ceil_div_eq_ediv 2 1 (by omega)]
    decide
  exact ⟨by decide,
    c8_goal_seeker_overlap_unchecked sampleConfigGoalSeeker (by decide) hinv (by decide)⟩

/-! ### Raw parsed data and the builder chain (for claim C1) -/

/-- Untyped parsed configuration data (the nested mapping produced by the
parsing collaborator): integers, strings, ordered lists and string-keyed
mappings.  A `dict` models a Python dictionary, whose keys are unique. -/
inductive Data where
  | int (n : Int)
  | str (s : String)
  | list (xs : List Data)
  | dict (fields : List (String × Data))

/-- `data[k]` on a mapping: the value at key `k`, if any. -/
def Data.lookup (d : Data) (k : String) : Option Data :=
  match d with
  | .dict fs => fs.lookup k
  | _ => none

/-- `set(data.keys()) == set(target)` for string key lists. -/
def keySetEq (keys target : List String) : Bool :=
  keys.all (fun k => target.contains k) && target.all (fun k => keys.contains k)

/-- `is_config_version_valid` from `helpers.py`. -/
def is_config_version_valid (version : Int) : Bool := version == 1

/-- `is_velocity_valid` from `helpers.py`. -/
def is_velocity_valid (velocity : Int) : Bool := decide (velocity > 0)

/-- `is_visibility_radius_valid` from `helpers.py`. -/
def is_visibility_radius_valid (visibility_radius : Int) : Bool :=
  decide (visibility_radius > 0)

/-- `is_system_config_shallowly_valid` from `helpers.py`. -/
def is_system_config_shallowly_valid (data : Data) : Bool :=
  match data with
  | .dict fs =>
    keySetEq (fs.map (fun p => p.1)) ["version", "agent", "seekers", "environment"] &&
      (match fs.lookup "version" with
       | some (.int v) => is_config_version_valid v
       | _ => false)
  | _ => false

/-- `is_agent_config_shallowly_valid` from `helpers.py`. -/
def is_agent_config_shallowly_valid (data : Data) : Bool :=
  match data with
  | .dict fs =>
    keySetEq (fs.map (fun p => p.1))
        ["start_coordinates", "goal_coordinates", "velocity", "visibility_radius"] &&
      (match fs.lookup "velocity" with
       | some (.int v) => is_velocity_valid v
       | _ => false) &&
      (match fs.lookup "visibility_radius" with
       | some (.int v) => is_visibility_radius_valid v
       | _ => false)
  | _ => false

/-- `is_coordinate_component_valid` from `helpers.py`: an integer that is
non-negative. -/
def is_coordinate_component_valid (component : Data) : Bool :=
  match component with
  | .int n => decide (0 ≤ n)
  | _ => false

/-- `is_coordinates_data_valid` from `helpers.py`. -/
def is_coordinates_data_valid (data : Data) : Bool :=
  match data with
  | .list xs => xs.length == 2 && xs.all is_coordinate_component_valid
  | _ => false

/-- `is_seeker_config_shallowly_valid` from `helpers.py`. -/
def is_seeker_config_shallowly_valid (data : Data) : Bool :=
  match data with
  | .dict fs =>
    keySetEq (fs.map (fun p => p.1)) ["start_coordinates", "velocity"] &&
      (match fs.lookup "velocity" with
       | some (.int v) => is_velocity_valid v
       | _ => false)
  | _ => false

/-- `is_seekers_config_shallowly_valid` from `helpers.py`: a non-empty list
of shallowly valid seeker configurations. -/
def is_seekers_config_shallowly_valid (data : Data) : Bool :=
  match data with
  | .list xs => !xs.isEmpty && xs.all is_seeker_config_shallowly_valid
  | _ => false

/-- `is_episode_time_limit_valid` from `helpers.py`. -/
def is_episode_time_limit_valid (episode_time_limit : Int) : Bool :=
  decide (episode_time_limit > 0)

/-- `is_dimension_size_valid` from `helpers.py`: an integer that is
positive. -/
def is_dimension_size_valid (dimension_size : Data) : Bool :=
  match dimension_size with
  | .int n => decide (n > 0)
  | _ => false

/-- `is_grid_dimensions_data_valid` from `helpers.py`. -/
def is_grid_dimensions_data_valid (data : Data) : Bool :=
  match data with
  | .dict fs =>
    keySetEq (fs.map (fun p => p.1)) ["width", "height"] &&
      (fs.map (fun p => p.2)).all is_dimension_size_valid
  | _ => false

/-- `is_obstacles_coordinates_data_valid` from `helpers.py`. -/
def is_obstacles_coordinates_data_valid (data : Data) : Bool :=
  match data with
  | .list xs => xs.all is_coordinates_data_valid
  | _ => false

/-- `is_environment_config_shallowly_valid` from `helpers.py`. -/
def is_environment_config_shallowly_valid (data : Data) : Bool :=
  match data with
  | .dict fs =>
    keySetEq (fs.map (fun p => p.1))
        ["grid_dimensions", "obstacles_coordinates", "episode_time_limit"] &&
      (match fs.lookup "episode_time_limit" with
       | some (.int v) => is_episode_time_limit_valid v
       | _ => false)
  | _ => false

/-- `Coordinates.from_list` applied to validated coordinate data: a
two-element list of integers.  (The builders invoke this only after
`is_coordinates_data_valid` has passed, so other shapes never reach it.) -/
def dataToCoordinates (d : Data) : Option Coordinates :=
  match d with
  | .list [.int a, .int b] => some ⟨a, b⟩
  | _ => none

/-- `AgentConfiguration.from_dict` from `configuration.py`.  A missing key
models the `KeyError` Python would raise; the final wildcard models field
shapes the dataclass path cannot receive once the shallow agent check has
passed. -/
def AgentConfiguration.from_dict (agent_config : Data) :
    Except String AgentConfiguration :=
  match agent_config.lookup "start_coordinates" with
  | none => .error "KeyError start_coordinates"
  | some sd =>
    if ¬ is_coordinates_data_valid sd then
      .error "The agent configuration does not have valid start coordinates"
    else
      match agent_config.lookup "goal_coordinates" with
      | none => .error "KeyError goal_coordinates"
      | some gdta =>
        if ¬ is_coordinates_data_valid gdta then
          .error "The agent configuration does not have valid goal coordinates"
        else
          match dataToCoordinates sd, dataToCoordinates gdta,
              agent_config.lookup "velocity", agent_config.lookup "visibility_radius" with
          | some sc, some gc, some (.int v), some (.int vr) => .ok ⟨sc, gc, v, vr⟩
          | _, _, _, _ => .error "invalid agent configuration fields"

/-- `SeekerConfiguration.from_dict` from `configuration.py`. -/
def SeekerConfiguration.from_dict (seeker_config : Data) :
    Except String SeekerConfiguration :=
  match seeker_config.lookup "start_coordinates" with
  | none => .error "KeyError start_coordinates"
  | some sd =>
    if ¬ is_coordinates_data_valid sd then
      .error "The seeker configuration does not have valid start coordinates"
    else
      match dataToCoordinates sd, seeker_config.lookup "velocity" with
      | some sc, some (.int v) => .ok ⟨sc, v⟩
      | _, _ => .error "invalid seeker configuration fields"

/-- `EnvironmentConfiguration.from_dict` from `configuration.py`. -/
def EnvironmentConfiguration.from_dict (environment_config : Data) :
    Except String EnvironmentConfiguration :=
  match environment_config.lookup "grid_dimensions" with
  | none => .error "KeyError grid_dimensions"
  | some gdd =>
    if ¬ is_grid_dimensions_data_valid gdd then
      .error "The environment configuration does not have valid grid dimensions"
    else
      match environment_config.lookup "obstacles_coordinates" with
      | none => .error "KeyError obstacles_coordinates"
      | some od =>
        if ¬ is_obstacles_coordinates_data_valid od then
          .error "The environment configuration does not have valid coordinates for obstacles"
        else
          match gdd.lookup "width", gdd.lookup "height", od,
              environment_config.lookup "episode_time_limit" with
          | some (.int w), some (.int h), .list obsList, some (.int lim) =>
            match obsList.mapM dataToCoordinates with
            | some obs => .ok ⟨⟨w, h⟩, obs, lim⟩
            | none => .error "invalid obstacle entry"
          | _, _, _, _ => .error "invalid environment configuration fields"

/-- The tail of `SystemConfiguration.from_dict`: run the semantic validator
on the assembled object, propagate its error, otherwise return the object
(`validate_system_configuration(system_configuration)` then `return`). -/
def attachValidation (sc : SystemConfiguration) : Except String SystemConfiguration :=
  match validate_system_configuration sc with
  | .error e => .error e
  | .ok _ => .ok sc

/-- `SystemConfiguration.from_dict` from `configuration.py`: shallow checks
of the three sub-configurations, then the three sub-builders, composition
with the derived `num_seekers`, and finally the semantic validator — there
is no path that returns without validating. -/
def SystemConfiguration.from_dict (system_config : Data) :
    Except String SystemConfiguration :=
  match system_config.lookup "agent" with
  | none => .error "KeyError agent"
  | some ad =>
    if ¬ is_agent_config_shallowly_valid ad then
      .error "The system configuration does not have a valid agent configuration"
    else
      match system_config.lookup "seekers" with
      | none => .error "KeyError seekers"
      | some sd =>
        if ¬ is_seekers_config_shallowly_valid sd then
          .error "The system configuration does not have valid seeker configurations"
        else
          match system_config.lookup "environment" with
          | none => .error "KeyError environment"
          | some ed =>
            if ¬ is_environment_config_shallowly_valid ed then
              .error "The system configuration does not have a valid environment configuration"
            else
              match AgentConfiguration.from_dict ad with
              | .error e => .error e
              | .ok agent =>
                match sd with
                | .list seekerList =>
                  match seekerList.mapM SeekerConfiguration.from_dict with
                  | .error e => .error e
                  | .ok seekers =>
                    match EnvironmentConfiguration.from_dict ed with
                    | .error e => .error e
                    | .ok environment =>
                      attachValidation
                        ⟨agent, seekers, environment, (seekerList.length : Int)⟩
                | _ => .error "invalid seekers configuration"

lemma attachValidation_ok_inv {sc sc' : SystemConfiguration}
    (h : attachValidation sc = .ok sc') :
    validate_system_configuration sc = .ok () ∧ sc = sc' := by
  unfold attachValidation at h
  split at h
  · exact Except.noConfusion h
  · rename_i val heq
    cases val
    injection h with h2
    exact ⟨heq, h2⟩

/-- A successful validation forces a positive agent velocity: the time-step
conversion, which the validator always reaches on success, raises on
non-positive velocity. -/
lemma validate_ok_velocity_pos {sc : SystemConfiguration}
    (h : validate_system_configuration sc = .ok ()) : 0 < sc.agent.velocity := by
  unfold validate_system_configuration at h
  by_cases h1 : are_obstacles_unique sc.environment.obstacles_coordinates
  case neg => rw [if_pos h1] at h; exact Except.noConfusion h
  rw [if_neg (not_not_intro h1)] at h
  by_cases h2 : are_obstacles_in_grid sc.environment.obstacles_coordinates
      sc.environment.grid_dimensions
  case neg => rw [if_pos h2] at h; exact Except.noConfusion h
  rw [if_neg (not_not_intro h2)] at h
  by_cases h3 : does_agent_start_in_grid sc.agent.start_coordinates
      sc.environment.grid_dimensions
  case neg => rw [if_pos h3] at h; exact Except.noConfusion h
  rw [if_neg (not_not_intro h3)] at h
  by_cases h4 : is_agent_goal_in_grid sc.agent.goal_coordinates
      sc.environment.grid_dimensions
  case neg => rw [if_pos h4] at h; exact Except.noConfusion h
  rw [if_neg (not_not_intro h4)] at h
  by_cases h5 : are_seekers_unique (sc.seekers.map (fun s => s.start_coordinates))
  case neg => rw [if_pos h5] at h; exact Except.noConfusion h
  rw [if_neg (not_not_intro h5)] at h
  by_cases h6 : do_seekers_start_in_grid (sc.seekers.map (fun s => s.start_coordinates))
      sc.environment.grid_dimensions
  case neg => rw [if_pos h6] at h; exact Except.noConfusion h
  rw [if_neg (not_not_intro h6)] at h
  by_cases h7 : intersects [sc.agent.start_coordinates] sc.environment.obstacles_coordinates
  case pos => rw [if_pos h7] at h; exact Except.noConfusion h
  rw [if_neg h7] at h
  by_cases h8 : intersects [sc.agent.start_coordinates] [sc.agent.goal_coordinates]
  case pos => rw [if_pos h8] at h; exact Except.noConfusion h
  rw [if_neg h8] at h
  by_cases h9 : intersects [sc.agent.start_coordinates]
      (sc.seekers.map (fun s => s.start_coordinates))
  case pos => rw [if_pos h9] at h; exact Except.noConfusion h
  rw [if_neg h9] at h
  by_cases h10 : intersects [sc.agent.goal_coordinates] sc.environment.obstacles_coordinates
  case pos => rw [if_pos h10] at h; exact Except.noConfusion h
  rw [if_neg h10] at h
  by_cases h11 : intersects (sc.seekers.map (fun s => s.start_coordinates))
      sc.environment.obstacles_coordinates
  case pos => rw [if_pos h11] at h; exact Except.noConfusion h
  rw [if_neg h11] at h
  cases hmm : minimum_moves_to_reach_goal sc.environment.grid_dimensions
      sc.agent.start_coordinates sc.agent.goal_coordinates
      sc.environment.obstacles_coordinates with
  | none =>
    rw [hmm] at h
    exact Except.noConfusion h
  | some m =>
    rw [hmm] at h
    dsimp only at h
    by_cases hv : sc.agent.velocity ≤ 0
    · exfalso
      rw [calculate_minimum_time_steps_to_reach_goal, if_pos hv] at h
      exact Except.noConfusion h
    · omega

lemma validate_ok_invariants {sc : SystemConfiguration}
    (h : validate_system_configuration sc = .ok ()) : semanticInvariantsHold sc :=
  (validate_ok_iff sc (validate_ok_velocity_pos h)).mp h

/-- C1: every `SystemConfiguration` that `SystemConfiguration.from_dict`
returns satisfies all the semantic invariants of spec §3 — the builder
invokes the semantic validator before returning, and every other path
raises. -/
theorem c1_from_dict_validated (d : Data) (sc : SystemConfiguration)
    (h : SystemConfiguration.from_dict d = .ok sc) :
    semanticInvariantsHold sc := by
  have hval : validate_system_configuration sc = .ok () := by
    unfold SystemConfiguration.from_dict at h
    split at h
    · exact Except.noConfusion h
    split at h
    · exact Except.noConfusion h
    split at h
    · exact Except.noConfusion h
    split at h
    · exact Except.noConfusion h
    split at h
    · exact Except.noConfusion h
    split at h
    · exact Except.noConfusion h
    split at h
    · exact Except.noConfusion h
    split at h
    · split at h
      · exact Except.noConfusion h
      split at h
      · exact Except.noConfusion h
      obtain ⟨hv2, hsc⟩ := attachValidation_ok_inv h
      rw [← hsc]
      exact hv2
    · exact Except.noConfusion h
  exact validate_ok_invariants hval

/-- A well-formed raw configuration mapping: 3x3 grid, agent from (0,0) to
(2,2) at velocity 1, one seeker at (2,0), no obstacles, time limit 5. -/
def sampleData : Data :=
  .dict [
    ("version", .int 1),
    ("agent", .dict [
      ("start_coordinates", .list [.int 0, .int 0]),
      ("goal_coordinates", .list [.int 2, .int 2]),
      ("velocity", .int 1),
      ("visibility_radius", .int 1)]),
    ("seekers", .list [.dict [
      ("start_coordinates", .list [.int 2, .int 0]),
      ("velocity", .int 1)]]),
    ("environment", .dict [
      ("grid_dimensions", .dict [("width", .int 3), ("height", .int 3)]),
      ("obstacles_coordinates", .list []),
      ("episode_time_limit", .int 5)])]

/-- The typed configuration that `sampleData` builds to. -/
def sampleConfigC1 : SystemConfiguration :=
  ⟨⟨⟨0, 0⟩, ⟨2, 2⟩, 1, 1⟩, [⟨⟨2, 0⟩, 1⟩], ⟨⟨3, 3⟩, [], 5⟩, 1⟩

theorem c1_witness :
    SystemConfiguration.from_dict sampleData = .ok sampleConfigC1 ∧
      semanticInvariantsHold sampleConfigC1 := by
  have hinv : semanticInvariantsHold sampleConfigC1 := by
    refine ⟨by decide, by decide, by decide, by decide, by decide, by decide, by decide,
      by decide, by decide, by decide, by decide, ⟨2, by decide, ?_⟩, by decide⟩
    show (⌈((2 : Int) : ℚ) / ((1 : Int) : ℚ)⌉ : Int) ≤ 5
    rw [ceil_div_eq_ediv 2 1 (by omega)]
    decide
  have hok : validate_system_configuration sampleConfigC1 = .ok () :=
    (validate_ok_iff _ (by decide)).mpr hinv
  have hfd : SystemConfiguration.from_dict sampleData = .ok sampleConfigC1 := by
    have h1 : SystemConfiguration.from_dict sampleData =
        attachValidation sampleConfigC1 := rfl
    rw [h1]
    unfold attachValidation
    rw [hok]
  exact ⟨hfd, c1_from_dict_validated sampleData sampleConfigC1 hfd⟩
